import Mathlib

/- Shallow embedding of a small general-purpose Python support library
   (validation.py, general.py, file.py), together with theorems about the
   embedded functions.  Machine integers are modelled as Int, Python floats
   as exact rationals (the validators only compare them, never compute),
   and the filesystem as explicit lists of paths threaded through the
   functions. -/

/-! ## Character and string utilities -/

/-- Lowercase a single ASCII character, as Python str.lower does for ASCII. -/
def charLower (c : Char) : Char :=
  if c.isUpper then Char.ofNat (c.toNat + 32) else c

/-- Lowercase of a string (ASCII model of Python str.lower). -/
def strLower (s : String) : String :=
  String.mk (s.data.map charLower)

/-- Numeric value of a list of decimal digit characters, most significant first. -/
def digitsVal (cs : List Char) : Nat :=
  cs.foldl (fun a c => a * 10 + (c.toNat - 48)) 0

/-- The decimal digit character of a value below ten. -/
def digitChar (n : Nat) : Char :=
  match n with
  | 0 => '0'
  | 1 => '1'
  | 2 => '2'
  | 3 => '3'
  | 4 => '4'
  | 5 => '5'
  | 6 => '6'
  | 7 => '7'
  | 8 => '8'
  | _ => '9'

/-- Decimal digits of a natural number, with fuel for structural recursion. -/
def natDigitsAux : Nat → Nat → List Char
  | 0, _ => []
  | fuel + 1, n =>
    if n < 10 then [digitChar n]
    else natDigitsAux fuel (n / 10) ++ [digitChar (n % 10)]

/-- Decimal digits of a natural number, most significant first. -/
def natDigits (n : Nat) : List Char :=
  natDigitsAux (n + 1) n

/-- Decimal rendering of an integer, as Python str(int). -/
def intStr (n : Int) : String :=
  if n < 0 then ("-") ++ String.mk (natDigits n.natAbs)
  else String.mk (natDigits n.natAbs)

/-- Zero-padded decimal rendering of a natural number, as the Python
format specification 03d used for backup suffixes. -/
def pad3 (i : Nat) : String :=
  if (natDigits i).length < 3 then
    String.mk (List.replicate (3 - (natDigits i).length) '0' ++ natDigits i)
  else String.mk (natDigits i)

/-- Whether the first list is an initial block of the second. -/
def leadsWith : List Char → List Char → Bool
  | [], _ => true
  | _ :: _, [] => false
  | a :: n, b :: h => a == b && leadsWith n h

/-- Whether the first list occurs contiguously inside the second. -/
def occursIn (needle : List Char) (hay : List Char) : Bool :=
  match hay with
  | [] => leadsWith needle []
  | _ :: rest => leadsWith needle hay || occursIn needle rest

/-- Whether the second string occurs as a substring of the first. -/
def strContainsB (hay needle : String) : Bool :=
  occursIn needle.data hay.data

/-- Join string pieces with a single slash, as the separator join used by
posixpath normalization. -/
def joinWithSlash : List String → String
  | [] => String.mk []
  | [c] => c
  | c :: rest => c ++ ("/") ++ joinWithSlash rest

/-- Join string pieces with a comma and space, as Python list repr does. -/
def joinWithCommaSpace : List String → String
  | [] => String.mk []
  | [c] => c
  | c :: rest => c ++ (", ") ++ joinWithCommaSpace rest

/-- Split a character list at every slash, as Python str.split with a
slash separator. -/
def splitOnSlash (cs : List Char) : List (List Char) :=
  match cs with
  | [] => [[]]
  | c :: rest =>
    let r := splitOnSlash rest
    if c == '/' then [] :: r
    else
      match r with
      | h :: t => (c :: h) :: t
      | [] => [[c]]

/-- Split a character list at the first character satisfying the test,
returning the part before it and, when found, the part after it. -/
def splitOnceOn (p : Char → Bool) (cs : List Char) : List Char × Option (List Char) :=
  match cs with
  | [] => ([], none)
  | c :: rest =>
    if p c then ([], some rest)
    else
      let r := splitOnceOn p rest
      (c :: r.1, r.2)

/-! ## Python numeric parsing

Models of the int and float constructors applied to strings, restricted to
plain decimal literals (surrounding whitespace, underscores and the
infinity and nan spellings are not modelled). -/

/-- Consume an optional leading sign; returns whether it was a minus. -/
def parseSign : List Char → Bool × List Char
  | '+' :: rest => (false, rest)
  | '-' :: rest => (true, rest)
  | cs => (false, cs)

/-- Parse a nonempty all-digit list. -/
def parseDigits? (cs : List Char) : Option Nat :=
  if cs ≠ [] ∧ cs.all (fun c => c.isDigit) then some (digitsVal cs) else none

/-- Python int applied to a string: optional sign then decimal digits. -/
def pyInt (s : String) : Option Int :=
  let r := parseSign s.data
  (parseDigits? r.2).map (fun n => if r.1 then -(n : Int) else (n : Int))

/-- Parse the mantissa of a Python float literal: optional sign, then
digits with an optional decimal point (digits may be on either side, not
missing from both). -/
def parseMantissa? (cs : List Char) : Option Rat :=
  let r := parseSign cs
  let s := splitOnceOn (fun c => c == '.') r.2
  let v : Option Rat :=
    match s.2 with
    | none => (parseDigits? s.1).map (fun n => (n : Rat))
    | some fp =>
      if s.1 = [] ∧ fp = [] then none
      else if s.1.all (fun c => c.isDigit) ∧ fp.all (fun c => c.isDigit) then
        some ((digitsVal s.1 : Rat) + (digitsVal fp : Rat) / ((10 : Rat) ^ fp.length))
      else none
  v.map (fun q => if r.1 then -q else q)

/-- Parse the exponent of a Python float literal: optional sign then digits. -/
def parseExp? (cs : List Char) : Option Int :=
  let r := parseSign cs
  (parseDigits? r.2).map (fun n => if r.1 then -(n : Int) else (n : Int))

/-- Python float applied to a string: mantissa with optional exponent. -/
def pyFloat (s : String) : Option Rat :=
  let cs := s.data.map charLower
  let sp := splitOnceOn (fun c => c == 'e') cs
  match sp.2 with
  | none => parseMantissa? sp.1
  | some ec =>
    match parseMantissa? sp.1, parseExp? ec with
    | some mv, some ev => some (mv * (10 : Rat) ^ ev)
    | _, _ => none

/-! ## Exceptions and Python values -/

/-- The exception kinds raised by the library (ArgumentConflictError derives
from Exception, the rest from standard errors; only the kind and message
matter here). -/
inductive PyError where
  | argumentConflictError (msg : String)
  | typeError (msg : String)
  | valueError (msg : String)
  | fileNotFoundError (msg : String)
  | directoryNotFoundError (msg : String)
  | notAFileError (msg : String)
  | notADirectoryError (msg : String)
  | notAFileOrDirectoryError (msg : String)
  | permissionError (msg : String)
deriving DecidableEq

/-- Scalar Python values passed to the scalar validators. -/
inductive PyScalar where
  | int (n : Int)
  | str (s : String)
deriving DecidableEq

/-- Values passed to validate_ints: a scalar or a list of scalars. -/
inductive PyObj where
  | scalar (v : PyScalar)
  | list (xs : List PyScalar)
deriving DecidableEq

/-- Python int applied to a scalar: identity on ints, parse on strings. -/
def pyIntCast : PyScalar → Option Int
  | .int n => some n
  | .str s => pyInt s

/-- Python float applied to a scalar: exact embedding of ints, parse on
strings. -/
def pyFloatCast : PyScalar → Option Rat
  | .int n => some (n : Rat)
  | .str s => pyFloat s

/-- Python str applied to a scalar. -/
def pyScalarStr : PyScalar → String
  | .int n => intStr n
  | .str s => s

/-- Python str applied to the type of a scalar. -/
def pyTypeName : PyScalar → String
  | .int _ => "<class \x27int\x27>"
  | .str _ => "<class \x27str\x27>"

/-- A value wrapped in single quotes, as the f-string pattern used in
the error messages. -/
def quoted (s : String) : String :=
  ("\x27") ++ s ++ ("\x27")

/-! ## validation.py: validate_int and validate_float -/

/-- The conflicting-bounds test of validate_int (source condition:
min_value is not None and max_value is not None and min_value >= max_value). -/
def minMaxConflictInt (min_value max_value : Option Int) : Bool :=
  match min_value, max_value with
  | some a, some b => a ≥ b
  | _, _ => false

/-- The conflicting-bounds test of validate_float. -/
def minMaxConflictRat (min_value max_value : Option Rat) : Bool :=
  match min_value, max_value with
  | some a, some b => a ≥ b
  | _, _ => false

/-- The TypeError message raised by validate_int on an uncastable value. -/
def intCastErrorMsg (value : PyScalar) : String :=
  quoted (pyScalarStr value) ++ (" is of type ") ++ quoted (pyTypeName value) ++ (", not int")

/-- The TypeError message raised by validate_float on an uncastable value. -/
def floatCastErrorMsg (value : PyScalar) : String :=
  quoted (pyScalarStr value) ++ (" is of type ") ++ quoted (pyTypeName value) ++ (", not float")

/-- Rendering of a rational bound inside the float error messages.  Python
renders a float here; the exact digits are not claimed anywhere, so a plain
fraction rendering is used. -/
def ratStr (q : Rat) : String :=
  if q.den = 1 then intStr q.num
  else intStr q.num ++ ("/") ++ String.mk (natDigits q.den)

/-- The minimum-bound check of validate_int. -/
def checkMinInt (v : Int) : Option Int → Option PyError
  | none => none
  | some m =>
    if v < m then some (.valueError (intStr v ++ (" is less than minimum value of ") ++ intStr m))
    else none

/-- The maximum-bound check of validate_int. -/
def checkMaxInt (v : Int) : Option Int → Option PyError
  | none => none
  | some m =>
    if v > m then some (.valueError (intStr v ++ (" is greater than maximum value of ") ++ intStr m))
    else none

/-- The choices check of validate_int. -/
def checkChoicesInt (v : Int) : Option (List Int) → Option PyError
  | none => none
  | some cs =>
    if ¬ v ∈ cs then some (.valueError (intStr v ++ (" is not one of ") ++ ("(") ++ joinWithCommaSpace (cs.map intStr) ++ (")")))
    else none

/-- validate_int of validation.py: conflicting-bounds check, int cast,
then minimum, maximum and choices checks in order. -/
def validate_int (value : PyScalar) (min_value max_value : Option Int)
    (choices : Option (List Int)) : Except PyError Int :=
  if minMaxConflictInt min_value max_value then
    .error (.argumentConflictError ("min_value must be greater than max_value"))
  else
    match pyIntCast value with
    | none => .error (.typeError (intCastErrorMsg value))
    | some v =>
      match checkMinInt v min_value with
      | some e => .error e
      | none =>
        match checkMaxInt v max_value with
        | some e => .error e
        | none =>
          match checkChoicesInt v choices with
          | some e => .error e
          | none => .ok v

/-- The minimum-bound check of validate_float. -/
def checkMinRat (v : Rat) : Option Rat → Option PyError
  | none => none
  | some m =>
    if v < m then some (.valueError (ratStr v ++ (" is less than minimum value of ") ++ ratStr m))
    else none

/-- The maximum-bound check of validate_float. -/
def checkMaxRat (v : Rat) : Option Rat → Option PyError
  | none => none
  | some m =>
    if v > m then some (.valueError (ratStr v ++ (" is greater than maximum value of ") ++ ratStr m))
    else none

/-- validate_float of validation.py: conflicting-bounds check, float cast,
then minimum and maximum checks in order. -/
def validate_float (value : PyScalar) (min_value max_value : Option Rat) :
    Except PyError Rat :=
  if minMaxConflictRat min_value max_value then
    .error (.argumentConflictError ("min_value must be greater than max_value"))
  else
    match pyFloatCast value with
    | none => .error (.typeError (floatCastErrorMsg value))
    | some v =>
      match checkMinRat v min_value with
      | some e => .error e
      | none =>
        match checkMaxRat v max_value with
        | some e => .error e
        | none => .ok v

/-! ## validation.py: validate_ints -/

/-- Python repr of a list of ints, as interpolated into the length error
message. -/
def pyReprIntList (xs : List Int) : String :=
  ("[") ++ joinWithCommaSpace (xs.map intStr) ++ ("]")

/-- Rendering of an optional int bound inside an f-string. -/
def optIntStr : Option Int → String
  | none => ("None")
  | some n => intStr n

/-- The length-mismatch message of validate_ints.  The source interpolates
min_value into the slot after the word not. -/
def intsLengthMsg (validated_values : List Int) (min_value : Option Int) : String :=
  quoted (pyReprIntList validated_values) ++ (" is of length ")
    ++ String.mk (natDigits validated_values.length) ++ (", not ")
    ++ quoted (optIntStr min_value)

/-- Element-wise validation loop of validate_ints: the first raising
element aborts the loop. -/
def validateAll (xs : List PyScalar) (min_value max_value : Option Int)
    (choices : Option (List Int)) : Except PyError (List Int) :=
  match xs with
  | [] => .ok []
  | v :: rest =>
    match validate_int v min_value max_value choices with
    | .error e => .error e
    | .ok n =>
      match validateAll rest min_value max_value choices with
      | .error e => .error e
      | .ok ns => .ok (n :: ns)

/-- The iteration performed by validate_ints after the len probe: a bare
int has no len and is wrapped into a one-element list; a string has a len
and iterating it yields its characters; a list yields its elements. -/
def pyElems : PyObj → List PyScalar
  | .scalar (.int n) => [.int n]
  | .scalar (.str s) => s.data.map (fun c => PyScalar.str (String.mk [c]))
  | .list xs => xs

/-- validate_ints of validation.py: conflicting-bounds check, wrap of
values without a len, element-wise validate_int, then the length check. -/
def validate_ints (values : PyObj) (length : Option Nat)
    (min_value max_value : Option Int) (choices : Option (List Int)) :
    Except PyError (List Int) :=
  if minMaxConflictInt min_value max_value then
    .error (.argumentConflictError ("min_value must be greater than max_value"))
  else
    match validateAll (pyElems values) min_value max_value choices with
    | .error e => .error e
    | .ok validated_values =>
      match length with
      | some l =>
        if validated_values.length ≠ l then
          .error (.valueError (intsLengthMsg validated_values min_value))
        else .ok validated_values
      | none => .ok validated_values

/-! ## validation.py: validate_str -/

/-- Assignment into a Python dict modelled as an ordered association list:
an existing key keeps its position and gets the new value, a new key is
appended. -/
def dictAssign (d : List (String × String)) (k v : String) : List (String × String) :=
  if d.any (fun p => p.1 == k) then
    d.map (fun p => if p.1 == k then (k, v) else p)
  else d ++ [(k, v)]

/-- Lookup in the dict model. -/
def dictGet? (d : List (String × String)) (k : String) : Option String :=
  (d.find? (fun p => p.1 == k)).map (fun p => p.2)

/-- The case_insensitive_options dict of validate_str: each option is
stored under its lowercase, later options overwriting earlier ones. -/
def caseInsensitiveOptions (options : List String) : List (String × String) :=
  options.foldl (fun d o => dictAssign d (strLower o) o) []

/-- Python str of dict_keys, as interpolated into the validate_str error
message. -/
def dictKeysRepr (d : List (String × String)) : String :=
  ("dict_keys([") ++ joinWithCommaSpace (d.map (fun p => quoted p.1)) ++ ("])")

/-- The ValueError message of validate_str (note the value has already
been lowercased when interpolated). -/
def strOptionsMsg (valueLower : String) (d : List (String × String)) : String :=
  quoted valueLower ++ (" is not one of options ") ++ quoted (dictKeysRepr d)

/-- validate_str of validation.py: build the case-insensitive option dict,
lowercase the value, and return the canonical option or raise. -/
def validate_str (value : String) (options : List String) : Except PyError String :=
  let d := caseInsensitiveOptions options
  let v := strLower value
  match dictGet? d v with
  | none => .error (.valueError (strOptionsMsg v d))
  | some o => .ok o

/-! ## general.py: run_command -/

/-- The ValueError message of run_command on an unacceptable exit code. -/
def runCommandFailMsg (command : String) (exitcode : Int) (stdout_str stderr_str : String) : String :=
  ("subprocess for command:\n") ++ command ++ ("\n\nfailed with exit code ")
    ++ intStr exitcode ++ (";\n\nSTDOUT:\n") ++ stdout_str
    ++ ("\n\nSTDERR:\n") ++ stderr_str

/-- The acceptable exit codes after the None default is applied. -/
def acceptableCodes : Option (List Int) → List Int
  | none => [0]
  | some cs => cs

/-- run_command of general.py, with the subprocess outcome (exit code and
decoded output texts) supplied as inputs: the default acceptable exit codes
are the singleton zero list, and an unacceptable exit code raises a
ValueError carrying the command, the code and both outputs. -/
def run_command (command : String) (acceptable_exitcodes : Option (List Int))
    (exitcode : Int) (stdout_str stderr_str : String) :
    Except PyError (Int × String × String) :=
  if ¬ exitcode ∈ acceptableCodes acceptable_exitcodes then
    .error (.valueError (runCommandFailMsg command exitcode stdout_str stderr_str))
  else .ok (exitcode, stdout_str, stderr_str)

/-! ## Filesystem model and posixpath operations -/

/-- The parts of the host environment consulted by the path validators:
working directory, environment variables, sets of file and directory
paths, and read- and write-permission sets. -/
structure FileSystem where
  cwd : String
  env : List (String × String)
  files : List String
  dirs : List String
  readable : List String
  writable : List String
deriving DecidableEq

/-- Lookup of an environment variable. -/
def lookupEnv (env : List (String × String)) (name : String) : Option String :=
  (env.find? (fun p => p.1 == name)).map (fun p => p.2)

/-- Whether a character may appear in an unbraced variable name (the word
character class of the posixpath.expandvars pattern). -/
def isVarChar (c : Char) : Bool :=
  c.isAlphanum || c == '_'

/-- Expansion of one dollar token of posixpath.expandvars.  Given the
characters after a dollar sign, returns the replacement characters and how
many input characters they consume; an unmatched token leaves the dollar
sign literal and consumes nothing. -/
def varTokenOut (env : List (String × String)) (rest : List Char) : List Char × Nat :=
  match rest with
  | [] => (['$'], 0)
  | c :: rest2 =>
    if c == Char.ofNat 123 then
      let name := rest2.takeWhile (fun d => d != Char.ofNat 125)
      if (rest2.drop name.length).head? == some (Char.ofNat 125) then
        match lookupEnv env (String.mk name) with
        | some v => (v.data, name.length + 2)
        | none => ('$' :: Char.ofNat 123 :: (name ++ [Char.ofNat 125]), name.length + 2)
      else (['$'], 0)
    else
      let name := rest.takeWhile isVarChar
      if name.isEmpty then (['$'], 0)
      else
        match lookupEnv env (String.mk name) with
        | some v => (v.data, name.length)
        | none => ('$' :: name, name.length)

/-- Character scan of posixpath.expandvars, with fuel for structural
recursion (each step consumes at least one character, so fuel equal to the
length suffices). -/
def expandvarsAux (env : List (String × String)) : Nat → List Char → List Char
  | 0, cs => cs
  | fuel + 1, cs =>
    match cs with
    | [] => []
    | c :: rest =>
      if c == '$' then
        let r := varTokenOut env rest
        r.1 ++ expandvarsAux env fuel (rest.drop r.2)
      else c :: expandvarsAux env fuel rest

/-- posixpath.expandvars: substitute dollar-variables known to the
environment; tildes are not touched (there is no expanduser call in the
library). -/
def expandvars (env : List (String × String)) (s : String) : String :=
  String.mk (expandvarsAux env s.data.length s.data)

/-- posixpath.isabs: whether the path begins with a slash. -/
def isabs (p : String) : Bool :=
  p.data.head? == some '/' 

/-- Whether the path ends with a slash. -/
def endsWithSlash (p : String) : Bool :=
  match p.data.getLast? with
  | some '/' => true
  | _ => false

/-- posixpath.join with a single second component. -/
def pathJoin (a b : String) : String :=
  if isabs b then b
  else if a = ("") ∨ endsWithSlash a then a ++ b
  else a ++ ("/") ++ b

/-- The number of leading-slash characters posixpath.normpath preserves
(exactly two leading slashes are kept; one, or three or more, collapse to
one; none stays none). -/
def leadingSlashes (cs : List Char) : Nat :=
  if (cs.takeWhile (fun c => c == '/')).length = 2 then 2
  else if (cs.takeWhile (fun c => c == '/')).length = 0 then 0
  else 1

/-- One step of the component loop of posixpath.normpath. -/
def normpathStep (k : Nat) (acc : List String) (comp : String) : List String :=
  if comp = ("") ∨ comp = (".") then acc
  else if comp ≠ ("..") ∨ (k = 0 ∧ acc = []) ∨ (acc ≠ [] ∧ acc.getLast? = some ("..")) then
    acc ++ [comp]
  else if acc ≠ [] then acc.dropLast
  else acc

/-- posixpath.normpath: collapse empty and dot components, resolve
dot-dot components lexically, preserve the leading-slash count. -/
def normpath (path : String) : String :=
  if path = ("") then (".")
  else
    let k := leadingSlashes path.data
    let comps := (splitOnSlash path.data).map String.mk
    let newComps := comps.foldl (normpathStep k) []
    let res := String.mk (List.replicate k '/') ++ joinWithSlash newComps
    if res = ("") then (".") else res

/-- posixpath.dirname: everything up to the last slash, with trailing
slashes stripped unless the head is all slashes. -/
def dirname (p : String) : String :=
  let head := (p.data.reverse.dropWhile (fun c => c != '/')).reverse
  if head.all (fun c => c == '/') then String.mk head
  else String.mk (head.reverse.dropWhile (fun c => c == '/')).reverse

/-- posixpath.basename: everything after the last slash. -/
def basename (p : String) : String :=
  String.mk (p.data.reverse.takeWhile (fun c => c != '/')).reverse

/-- posixpath.splitext applied to a basename: split at the last dot,
unless every character before that dot is itself a dot. -/
def splitext (b : String) : String × String :=
  if (b.data.reverse.takeWhile (fun c => c != '.')).length = b.data.reverse.length then
    (b, String.mk [])
  else if (b.data.reverse.drop
      ((b.data.reverse.takeWhile (fun c => c != '.')).length + 1)).all (fun c => c == '.') then
    (b, String.mk [])
  else
    (String.mk (b.data.reverse.drop
        ((b.data.reverse.takeWhile (fun c => c != '.')).length + 1)).reverse,
     String.mk ('.' :: (b.data.reverse.takeWhile (fun c => c != '.')).reverse))

/-- Python str.strip with a dot argument: remove leading and trailing dots. -/
def stripDots (s : String) : String :=
  String.mk ((s.data.dropWhile (fun c => c == '.')).reverse.dropWhile (fun c => c == '.')).reverse

/-- Whether a path exists in the modelled filesystem. -/
@[reducible] def fsExists (fs : FileSystem) (p : String) : Prop :=
  p ∈ fs.files ∨ p ∈ fs.dirs

/-- Whether a path is a file in the modelled filesystem. -/
@[reducible] def fsIsfile (fs : FileSystem) (p : String) : Prop :=
  p ∈ fs.files

/-- Whether a path is a directory in the modelled filesystem. -/
@[reducible] def fsIsdir (fs : FileSystem) (p : String) : Prop :=
  p ∈ fs.dirs

/-- Whether a path is readable in the modelled filesystem. -/
@[reducible] def fsReadable (fs : FileSystem) (p : String) : Prop :=
  p ∈ fs.readable

/-- Whether a path is writable in the modelled filesystem. -/
@[reducible] def fsWritable (fs : FileSystem) (p : String) : Prop :=
  p ∈ fs.writable

/-- os.makedirs: record the directory and its ancestors as existing. -/
def makedirs (fs : FileSystem) (v : String) : FileSystem :=
  let comps := (splitOnSlash v.data).map String.mk
  let parents := (List.range comps.length).map (fun i => joinWithSlash (comps.take (i + 1)))
  { fs with dirs := fs.dirs ++ parents.filter (fun p => p ≠ ("") ∧ ¬ p ∈ fs.dirs) }

/-! ## validation.py: validate_input_path and validate_output_path -/

/-- The existence block of validate_input_path: a missing path is created
when directories are permitted and creation requested, and otherwise
raises the not-found error matching the permitted kinds. -/
def inputExistsStep (v : String) (file_ok directory_ok create_directory : Bool)
    (fs : FileSystem) : Except PyError FileSystem :=
  if ¬ fsExists fs v then
    if directory_ok ∧ create_directory then .ok (makedirs fs v)
    else if ¬ file_ok ∧ directory_ok then
      .error (.directoryNotFoundError (quoted v ++ (" does not exist")))
    else .error (.fileNotFoundError (quoted v ++ (" does not exist")))
  else .ok fs

/-- The default directory after the None default is applied: the current
working directory. -/
def defaultDir (fs : FileSystem) : Option String → String
  | none => fs.cwd
  | some d => d

/-- The path normalization shared by the path validators: expand
environment variables, prepend the default directory to relative paths,
and normalize.  A leading tilde receives no special treatment: the
library never calls expanduser. -/
def resolvedPath (fs : FileSystem) (default_directory : Option String) (value : String) : String :=
  normpath (if isabs (expandvars fs.env value) then expandvars fs.env value
    else pathJoin (defaultDir fs default_directory) (expandvars fs.env value))

/-- The checks of validate_input_path after path resolution: existence
block, kind checks, readability check. -/
def inputChecks (v : String) (file_ok directory_ok create_directory : Bool)
    (fs : FileSystem) : Except PyError (String × FileSystem) :=
  match inputExistsStep v file_ok directory_ok create_directory fs with
  | .error e => .error e
  | .ok fs1 =>
    if file_ok ∧ ¬ directory_ok ∧ ¬ fsIsfile fs1 v then
      .error (.notAFileError (quoted v ++ (" is not a file")))
    else if ¬ file_ok ∧ directory_ok ∧ ¬ fsIsdir fs1 v then
      .error (.notADirectoryError (quoted v ++ (" is not a directory")))
    else if ¬ fsIsfile fs1 v ∧ ¬ fsIsdir fs1 v then
      .error (.notAFileOrDirectoryError (quoted v ++ (" is not a file or directory")))
    else if ¬ fsReadable fs1 v then
      .error (.permissionError (quoted v ++ (" cannot be read")))
    else .ok (v, fs1)

/-- validate_input_path of validation.py: conflict check, environment
variable expansion, prepending of the default directory to relative paths,
normalization, existence and kind checks, and a readability check. -/
def validate_input_path (value : String) (file_ok directory_ok : Bool)
    (default_directory : Option String) (create_directory : Bool)
    (fs : FileSystem) : Except PyError (String × FileSystem) :=
  if ¬ file_ok ∧ ¬ directory_ok then
    .error (.argumentConflictError ("both file and directory paths may not be prohibited"))
  else
    inputChecks (resolvedPath fs default_directory value) file_ok directory_ok
      create_directory fs

/-- The checks of validate_output_path after path resolution: kind and
writability checks on an existing path, and otherwise creation or checks
on the containing directory. -/
def outputChecks (v : String) (file_ok directory_ok create_directory : Bool)
    (fs : FileSystem) : Except PyError (String × FileSystem) :=
  if fsExists fs v then
    if file_ok ∧ ¬ directory_ok ∧ ¬ fsIsfile fs v then
      .error (.notAFileError (quoted v ++ (" is not a file")))
    else if ¬ file_ok ∧ directory_ok ∧ ¬ fsIsdir fs v then
      .error (.notADirectoryError (quoted v ++ (" is not a directory")))
    else if ¬ fsIsfile fs v ∧ ¬ fsIsdir fs v then
      .error (.notAFileOrDirectoryError (quoted v ++ (" is not a file or directory")))
    else if ¬ fsWritable fs v then
      .error (.permissionError (quoted v ++ (" cannot be written")))
    else .ok (v, fs)
  else
    if create_directory then .ok (v, makedirs fs v)
    else
      if ¬ fsExists fs (dirname v) then
        .error (.directoryNotFoundError (quoted (dirname v) ++ (" does not exist")))
      else if ¬ fsIsdir fs (dirname v) then
        .error (.notADirectoryError (quoted (dirname v) ++ (" is not a directory")))
      else if ¬ fsWritable fs (dirname v) then
        .error (.permissionError (quoted (dirname v) ++ (" cannot be written")))
      else .ok (v, fs)

/-- validate_output_path of validation.py: two conflict checks, the same
path normalization as the input validator, then kind and writability
checks on the path itself when it exists, and otherwise creation or checks
on its containing directory. -/
def validate_output_path (value : String) (file_ok directory_ok : Bool)
    (default_directory : Option String) (create_directory : Bool)
    (fs : FileSystem) : Except PyError (String × FileSystem) :=
  if ¬ file_ok ∧ ¬ directory_ok then
    .error (.argumentConflictError ("Arguments \x27file_ok\x27 and \x27directory_ok\x27 are in conflict; both file and directory paths may not be prohibited"))
  else if ¬ directory_ok ∧ create_directory then
    .error (.argumentConflictError ("Arguments \x27directory_ok\x27 and \x27create_directory\x27 are in conflict; may not prohibit directory paths and enable directory creation"))
  else
    outputChecks (resolvedPath fs default_directory value) file_ok directory_ok
      create_directory fs

/-! ## file.py: rename_preexisting_outfile -/

/-- The path normalization of the file.py helpers: expand environment
variables, prepend the working directory to relative paths, normalize. -/
def resolveAgainstCwd (fs : FileSystem) (value : String) : String :=
  resolvedPath fs none value

/-- The candidate backup path tried at index i: the zero-padded suffix is
inserted between the stem and the extension. -/
def backupCandidate (directory filename extension : String) (i : Nat) : String :=
  pathJoin directory (filename ++ ("_") ++ pad3 i ++ (".") ++ extension)

/-- The while-loop of rename_preexisting_outfile: the first index whose
candidate does not exist, searched upward from i with the given fuel. -/
def firstFreeIdx (fs : FileSystem) (mk : Nat → String) : Nat → Nat → Option Nat
  | 0, _ => none
  | fuel + 1, i =>
    if fsExists fs (mk i) then firstFreeIdx fs mk fuel (i + 1) else some i

/-- os.rename: every occurrence of the old path becomes the new path. -/
def fsRename (fs : FileSystem) (old tgt : String) : FileSystem :=
  { fs with
    files := fs.files.map (fun p => if p = old then tgt else p),
    dirs := fs.dirs.map (fun p => if p = old then tgt else p) }

/-- The filename stem of the backup name: splitext applied to the basename. -/
def backupStem (o : String) : String :=
  (splitext (basename o)).1

/-- The extension of the backup name: the second splitext component with
dots stripped. -/
def backupExt (o : String) : String :=
  stripDots (splitext (basename o)).2

/-- The backup path the while-loop tries at index i for the resolved
outfile. -/
def backupFor (fs : FileSystem) (outfile : String) (i : Nat) : String :=
  backupCandidate (dirname (resolveAgainstCwd fs outfile))
    (backupStem (resolveAgainstCwd fs outfile))
    (backupExt (resolveAgainstCwd fs outfile)) i

/-- rename_preexisting_outfile of file.py: normalize the proposed outfile
and, when it exists, rename it to the first free zero-padded backup
sibling.  The fuel bound exceeds the number of existing paths, so the
search always succeeds (proved below). -/
def rename_preexisting_outfile (outfile : String) (fs : FileSystem) : FileSystem :=
  if fsExists fs (resolveAgainstCwd fs outfile) then
    match firstFreeIdx fs (backupFor fs outfile)
        (fs.files.length + fs.dirs.length + 1) 0 with
    | some i => fsRename fs (resolveAgainstCwd fs outfile) (backupFor fs outfile i)
    | none => fs
  else fs

/-! ## file.py: temporary_filename -/

/-- Kinds of directory entries distinguished by the cleanup logic. -/
inductive EntryKind where
  | file
  | dir
deriving DecidableEq

/-- Filesystem model for the temporary-file helper: entries with kinds,
plus the set of paths whose removal is permitted (removal of any other
path raises PermissionError). -/
structure TempFS where
  entries : List (String × EntryKind)
  removable : List String
deriving DecidableEq

/-- os.path.isfile on the temporary filesystem. -/
def tfsIsfile (fs : TempFS) (p : String) : Bool :=
  fs.entries.any (fun q => q.1 == p && q.2 == EntryKind.file)

/-- os.path.isdir on the temporary filesystem. -/
def tfsIsdir (fs : TempFS) (p : String) : Bool :=
  fs.entries.any (fun q => q.1 == p && q.2 == EntryKind.dir)

/-- os.path.exists on the temporary filesystem. -/
def tfsExists (fs : TempFS) (p : String) : Bool :=
  fs.entries.any (fun q => q.1 == p)

/-- Creation of a file (NamedTemporaryFile with delete disabled); the
creator may remove its own fresh file, so the path becomes removable. -/
def tfsCreateFile (fs : TempFS) (p : String) : TempFS :=
  { entries := (p, EntryKind.file) :: fs.entries.filter (fun q => q.1 != p),
    removable := if fs.removable.contains p then fs.removable else p :: fs.removable }

/-- os.remove on the temporary filesystem (the caller has checked
permission). -/
def tfsRemove (fs : TempFS) (p : String) : TempFS :=
  { fs with entries := fs.entries.filter (fun q => q.1 != p) }

/-- temporary_filename of file.py as a context manager: create a named
temporary file, close and remove it, hand the fresh name to the block, and
in the finally clause remove the path again when it is a regular file,
swallowing a PermissionError there.  The block returns its final
filesystem and an optional exception, which the helper re-raises. -/
def temporary_filename (name : String)
    (block : String → TempFS → TempFS × Option String) (fs : TempFS) :
    TempFS × Option String :=
  let fs1 := tfsCreateFile fs name
  if fs1.removable.contains name then
    let fs2 := tfsRemove fs1 name
    let r := block name fs2
    if tfsIsfile r.1 name then
      if r.1.removable.contains name then (tfsRemove r.1 name, r.2)
      else (r.1, r.2)
    else (r.1, r.2)
  else (fs1, some ("PermissionError"))

/-! ## Helper lemmas -/

theorem digitsVal_append_one (l : List Char) (c : Char) :
    digitsVal (l ++ [c]) = digitsVal l * 10 + (c.toNat - 48) := by
  simp [digitsVal, List.foldl_append]

theorem digitChar_val : ∀ n, n < 10 → (digitChar n).toNat - 48 = n := by decide

theorem digitsVal_natDigitsAux : ∀ fuel n, n < fuel → digitsVal (natDigitsAux fuel n) = n := by
  intro fuel
  induction fuel with
  | zero => omega
  | succ fuel ih =>
    intro n hn
    unfold natDigitsAux
    by_cases h : n < 10
    · simp only [h, if_true]
      simpa [digitsVal] using digitChar_val n h
    · simp only [h, if_false]
      have hdiv : n / 10 < fuel := by
        have h1 : n / 10 < n := Nat.div_lt_self (by omega) (by omega)
        omega
      rw [digitsVal_append_one, ih (n / 10) hdiv, digitChar_val (n % 10) (by omega)]
      omega

theorem digitsVal_natDigits (n : Nat) : digitsVal (natDigits n) = n :=
  digitsVal_natDigitsAux (n + 1) n (by omega)

theorem digitsVal_cons_zero (xs : List Char) : digitsVal ('0' :: xs) = digitsVal xs := by
  have h : (fun (a : Nat) (c : Char) => a * 10 + (c.toNat - 48)) 0 '0' = 0 := by decide
  simp [digitsVal, List.foldl_cons, h]

theorem digitsVal_zeros (k : Nat) (l : List Char) :
    digitsVal (List.replicate k '0' ++ l) = digitsVal l := by
  induction k with
  | zero => simp
  | succ k ih => rw [List.replicate_succ, List.cons_append, digitsVal_cons_zero, ih]

theorem digitsVal_pad3 (i : Nat) : digitsVal (pad3 i).data = i := by
  unfold pad3
  split
  · show digitsVal (List.replicate _ '0' ++ natDigits i) = i
    rw [digitsVal_zeros, digitsVal_natDigits]
  · exact digitsVal_natDigits i

theorem pad3_injective : Function.Injective pad3 := by
  intro i j h
  have h2 : digitsVal (pad3 i).data = digitsVal (pad3 j).data := by rw [h]
  rwa [digitsVal_pad3, digitsVal_pad3] at h2

theorem strAppend_left_cancel {a b c : String} (h : a ++ b = a ++ c) : b = c := by
  apply String.ext
  have hd : a.data ++ b.data = a.data ++ c.data := by
    rw [← String.data_append, ← String.data_append, h]
  exact List.append_cancel_left hd

theorem strAppend_right_cancel {a b c : String} (h : a ++ c = b ++ c) : a = b := by
  apply String.ext
  have hd : a.data ++ c.data = b.data ++ c.data := by
    rw [← String.data_append, ← String.data_append, h]
  exact List.append_cancel_right hd

theorem leadsWith_self_append (n t : List Char) : leadsWith n (n ++ t) = true := by
  induction n with
  | nil => rfl
  | cons a n ih => simp [leadsWith, ih]

theorem occursIn_of_leadsWith (n h : List Char) (hl : leadsWith n h = true) :
    occursIn n h = true := by
  cases h with
  | nil => simpa [occursIn] using hl
  | cons c rest => simp [occursIn, hl]

theorem occursIn_cons (n : List Char) (c : Char) (h : List Char)
    (ho : occursIn n h = true) : occursIn n (c :: h) = true := by
  simp [occursIn, ho]

theorem occursIn_middle (a b c : List Char) : occursIn b (a ++ (b ++ c)) = true := by
  induction a with
  | nil => exact occursIn_of_leadsWith _ _ (leadsWith_self_append b c)
  | cons x a ih => exact occursIn_cons _ _ _ ih

theorem strContainsB_middle (pre mid post : String) :
    strContainsB (pre ++ mid ++ post) mid = true := by
  unfold strContainsB
  have h : (pre ++ mid ++ post).data = pre.data ++ (mid.data ++ post.data) := by
    simp [String.data_append, List.append_assoc]
  rw [h]
  exact occursIn_middle _ _ _

theorem strContainsB_tail (pre mid : String) : strContainsB (pre ++ mid) mid = true := by
  have h : pre ++ mid = pre ++ mid ++ ("") := by rw [String.append_empty]
  rw [h]
  exact strContainsB_middle pre mid ("")

theorem checkMinInt_shape (v : Int) (o : Option Int) (e : PyError)
    (h : checkMinInt v o = some e) : ∃ m, e = .valueError m := by
  cases o with
  | none => simp [checkMinInt] at h
  | some m =>
    unfold checkMinInt at h
    dsimp only at h
    by_cases hv : v < m
    · rw [if_pos hv] at h
      exact ⟨_, (Option.some.inj h).symm⟩
    · rw [if_neg hv] at h
      exact absurd h (by simp)

theorem checkMaxInt_shape (v : Int) (o : Option Int) (e : PyError)
    (h : checkMaxInt v o = some e) : ∃ m, e = .valueError m := by
  cases o with
  | none => simp [checkMaxInt] at h
  | some m =>
    unfold checkMaxInt at h
    dsimp only at h
    by_cases hv : v > m
    · rw [if_pos hv] at h
      exact ⟨_, (Option.some.inj h).symm⟩
    · rw [if_neg hv] at h
      exact absurd h (by simp)

theorem checkChoicesInt_shape (v : Int) (o : Option (List Int)) (e : PyError)
    (h : checkChoicesInt v o = some e) : ∃ m, e = .valueError m := by
  cases o with
  | none => simp [checkChoicesInt] at h
  | some cs =>
    unfold checkChoicesInt at h
    dsimp only at h
    by_cases hv : ¬ v ∈ cs
    · rw [if_pos hv] at h
      exact ⟨_, (Option.some.inj h).symm⟩
    · rw [if_neg hv] at h
      exact absurd h (by simp)

theorem checkMinRat_shape (v : Rat) (o : Option Rat) (e : PyError)
    (h : checkMinRat v o = some e) : ∃ m, e = .valueError m := by
  cases o with
  | none => simp [checkMinRat] at h
  | some m =>
    unfold checkMinRat at h
    dsimp only at h
    by_cases hv : v < m
    · rw [if_pos hv] at h
      exact ⟨_, (Option.some.inj h).symm⟩
    · rw [if_neg hv] at h
      exact absurd h (by simp)

theorem checkMaxRat_shape (v : Rat) (o : Option Rat) (e : PyError)
    (h : checkMaxRat v o = some e) : ∃ m, e = .valueError m := by
  cases o with
  | none => simp [checkMaxRat] at h
  | some m =>
    unfold checkMaxRat at h
    dsimp only at h
    by_cases hv : v > m
    · rw [if_pos hv] at h
      exact ⟨_, (Option.some.inj h).symm⟩
    · rw [if_neg hv] at h
      exact absurd h (by simp)

theorem validate_int_conflict_of_argError (value : PyScalar) (imin imax : Option Int)
    (ch : Option (List Int)) (m : String)
    (h : validate_int value imin imax ch = .error (.argumentConflictError m)) :
    minMaxConflictInt imin imax = true := by
  by_contra hc
  rw [Bool.not_eq_true] at hc
  unfold validate_int at h
  rw [hc] at h
  simp only [Bool.false_eq_true, if_false] at h
  cases hcast : pyIntCast value with
  | none => rw [hcast] at h; simp at h
  | some v =>
    rw [hcast] at h
    dsimp only at h
    cases hmin : checkMinInt v imin with
    | some e =>
      rw [hmin] at h
      obtain ⟨mm, rfl⟩ := checkMinInt_shape v imin e hmin
      simp at h
    | none =>
      rw [hmin] at h
      cases hmax : checkMaxInt v imax with
      | some e =>
        rw [hmax] at h
        obtain ⟨mm, rfl⟩ := checkMaxInt_shape v imax e hmax
        simp at h
      | none =>
        rw [hmax] at h
        cases hch : checkChoicesInt v ch with
        | some e =>
          rw [hch] at h
          obtain ⟨mm, rfl⟩ := checkChoicesInt_shape v ch e hch
          simp at h
        | none => rw [hch] at h; simp at h

theorem validate_float_conflict_of_argError (value : PyScalar) (fmin fmax : Option Rat)
    (m : String)
    (h : validate_float value fmin fmax = .error (.argumentConflictError m)) :
    minMaxConflictRat fmin fmax = true := by
  by_contra hc
  rw [Bool.not_eq_true] at hc
  unfold validate_float at h
  rw [hc] at h
  simp only [Bool.false_eq_true, if_false] at h
  cases hcast : pyFloatCast value with
  | none => rw [hcast] at h; simp at h
  | some v =>
    rw [hcast] at h
    dsimp only at h
    cases hmin : checkMinRat v fmin with
    | some e =>
      rw [hmin] at h
      obtain ⟨mm, rfl⟩ := checkMinRat_shape v fmin e hmin
      simp at h
    | none =>
      rw [hmin] at h
      cases hmax : checkMaxRat v fmax with
      | some e =>
        rw [hmax] at h
        obtain ⟨mm, rfl⟩ := checkMaxRat_shape v fmax e hmax
        simp at h
      | none => rw [hmax] at h; simp at h

/-! ## Claims C2, C5, C6, C7, C10 -/

/-- C2: run_command raises exactly when the exit code is not among the
acceptable exit codes (defaulting to the singleton zero list), the raised
message contains the command, the exit code, the captured stdout and the
captured stderr, and an acceptable exit code is returned together with the
decoded outputs. -/
theorem c2_run_command_spec (command : String) (acc : Option (List Int)) (exitcode : Int)
    (out err : String) :
    (exitcode ∈ acceptableCodes acc →
      run_command command acc exitcode out err = .ok (exitcode, out, err))
    ∧ (¬ exitcode ∈ acceptableCodes acc →
      run_command command acc exitcode out err
        = .error (.valueError (runCommandFailMsg command exitcode out err))
      ∧ strContainsB (runCommandFailMsg command exitcode out err) command = true
      ∧ strContainsB (runCommandFailMsg command exitcode out err) (intStr exitcode) = true
      ∧ strContainsB (runCommandFailMsg command exitcode out err) out = true
      ∧ strContainsB (runCommandFailMsg command exitcode out err) err = true)
    ∧ ((∃ e, run_command command acc exitcode out err = .error e) ↔
        ¬ exitcode ∈ acceptableCodes acc) := by
  refine ⟨fun h => by simp [run_command, h], fun h => ⟨by simp [run_command, h], ?_, ?_, ?_, ?_⟩, ?_⟩
  · have hs : runCommandFailMsg command exitcode out err
        = ("subprocess for command:\n") ++ command
          ++ (("\n\nfailed with exit code ") ++ (intStr exitcode ++ ((";\n\nSTDOUT:\n") ++ (out ++ (("\n\nSTDERR:\n") ++ err))))) := by
      simp [runCommandFailMsg, String.append_assoc]
    rw [hs]
    exact strContainsB_middle _ _ _
  · have hs : runCommandFailMsg command exitcode out err
        = (("subprocess for command:\n") ++ command ++ ("\n\nfailed with exit code "))
          ++ intStr exitcode ++ ((";\n\nSTDOUT:\n") ++ (out ++ (("\n\nSTDERR:\n") ++ err))) := by
      simp [runCommandFailMsg, String.append_assoc]
    rw [hs]
    exact strContainsB_middle _ _ _
  · have hs : runCommandFailMsg command exitcode out err
        = (("subprocess for command:\n") ++ command ++ ("\n\nfailed with exit code ")
            ++ intStr exitcode ++ (";\n\nSTDOUT:\n"))
          ++ out ++ (("\n\nSTDERR:\n") ++ err) := by
      simp [runCommandFailMsg, String.append_assoc]
    rw [hs]
    exact strContainsB_middle _ _ _
  · exact strContainsB_tail _ err
  · constructor
    · rintro ⟨e, he⟩
      by_cases hm : exitcode ∈ acceptableCodes acc
      · simp [run_command, hm] at he
      · exact hm
    · intro hm
      exact ⟨.valueError (runCommandFailMsg command exitcode out err), by simp [run_command, hm]⟩

/-- Witness for C2: the command exit 1 with the default acceptable codes
raises, and with acceptable code one returns exit code one and the outputs. -/
theorem c2_run_command_witness :
    run_command ("exit 1") none 1 ("out") ("err")
      = .error (.valueError (runCommandFailMsg ("exit 1") 1 ("out") ("err")))
    ∧ run_command ("exit 1") (some [1]) 1 ("out") ("err") = .ok (1, ("out"), ("err")) := by
  constructor
  · exact ((c2_run_command_spec ("exit 1") none 1 ("out") ("err")).2.1 (by decide)).1
  · exact (c2_run_command_spec ("exit 1") (some [1]) 1 ("out") ("err")).1 (by decide)

/-- C5 counterexample: with min_value and max_value both two (equal, so
min_value is not greater than max_value) validate_int still raises
ArgumentConflictError, and it does so even for an uncastable input. -/
theorem c5_counterexample :
    validate_int (PyScalar.str ("abc")) (some 2) (some 2) none
      = .error (.argumentConflictError ("min_value must be greater than max_value"))
    ∧ ¬ ((2 : Int) > 2) := by
  exact ⟨rfl, by decide⟩

/-- C5 amended: validate_int and validate_float raise ArgumentConflictError
exactly when both bounds are provided and min_value is greater than or
equal to max_value; the check precedes coercion, so it fires for every
input value, castable or not. -/
theorem c5_conflict_exactly_ge (v : PyScalar) (imin imax : Option Int)
    (ch : Option (List Int)) (fmin fmax : Option Rat) :
    ((∃ m, validate_int v imin imax ch = .error (.argumentConflictError m)) ↔
      minMaxConflictInt imin imax = true)
    ∧ ((∃ m, validate_float v fmin fmax = .error (.argumentConflictError m)) ↔
      minMaxConflictRat fmin fmax = true) := by
  constructor
  · constructor
    · rintro ⟨m, hm⟩
      exact validate_int_conflict_of_argError v imin imax ch m hm
    · intro hc
      exact ⟨("min_value must be greater than max_value"), by simp [validate_int, hc]⟩
  · constructor
    · rintro ⟨m, hm⟩
      exact validate_float_conflict_of_argError v fmin fmax m hm
    · intro hc
      exact ⟨("min_value must be greater than max_value"), by simp [validate_float, hc]⟩

/-- C6: the cast-failure message of validate_int and validate_float does
not contain the text expected by the claim and by the repository's own
tests; it reads: quote, value, quote, is of type, quoted type, not int. -/
theorem c6_cast_message_bug :
    validate_int (PyScalar.str ("abc")) none none none
      = .error (.typeError ("\x27abc\x27 is of type \x27<class \x27str\x27>\x27, not int"))
    ∧ strContainsB ("\x27abc\x27 is of type \x27<class \x27str\x27>\x27, not int") ("cannot be cast") = false
    ∧ validate_float (PyScalar.str ("abc")) none none
      = .error (.typeError ("\x27abc\x27 is of type \x27<class \x27str\x27>\x27, not float"))
    ∧ strContainsB ("\x27abc\x27 is of type \x27<class \x27str\x27>\x27, not float") ("cannot be cast") = false := by
  exact ⟨rfl, rfl, rfl, rfl⟩

/-- C7: the length-mismatch message of validate_ints reports the observed
length but interpolates min_value, not the expected length: for a
two-element list validated against expected length three with minimum
value zero, the message ends with zero and does not mention three. -/
theorem c7_length_message_bug :
    validate_ints (PyObj.list [PyScalar.int 1, PyScalar.int 2]) (some 3) (some 0) (some 10) none
      = .error (.valueError ("\x27[1, 2]\x27 is of length 2, not \x270\x27"))
    ∧ strContainsB ("\x27[1, 2]\x27 is of length 2, not \x270\x27") ("3") = false := by
  exact ⟨rfl, rfl⟩

/-- C10: a bare int scalar has no len, so validate_ints wraps it into a
one-element list and validating it equals the singleton of validate_int,
both without a length constraint and against expected length one. -/
theorem c10_scalar_singleton (n : Int) (imin imax : Option Int) (ch : Option (List Int)) :
    validate_ints (PyObj.scalar (PyScalar.int n)) none imin imax ch
      = (validate_int (PyScalar.int n) imin imax ch).map (fun v => [v])
    ∧ validate_ints (PyObj.scalar (PyScalar.int n)) (some 1) imin imax ch
      = (validate_int (PyScalar.int n) imin imax ch).map (fun v => [v]) := by
  by_cases hc : minMaxConflictInt imin imax = true
  · constructor <;> simp [validate_ints, validate_int, hc, Except.map]
  · rw [Bool.not_eq_true] at hc
    constructor <;>
    · simp only [validate_ints, pyElems, validateAll, hc, Bool.false_eq_true, if_false]
      cases h : validate_int (PyScalar.int n) imin imax ch with
      | error e => simp [h, Except.map]
      | ok v => simp [h, Except.map]

/-! ## Claim C1 -/

/-- C1 counterexample: the numeric string five with both bounds five is
satisfied by the parse (five is neither below the minimum nor above the
maximum), yet validate_int raises ArgumentConflictError rather than
returning the parse or a ValueError. -/
theorem c1_counterexample :
    pyInt ("5") = some 5
    ∧ ¬ ((5 : Int) < 5) ∧ ¬ ((5 : Int) > 5)
    ∧ validate_int (PyScalar.str ("5")) (some 5) (some 5) none
      = .error (.argumentConflictError ("min_value must be greater than max_value")) := by
  exact ⟨rfl, by decide, by decide, rfl⟩

/-- C1 amended: for a numeric string and bounds that are unset or
satisfied, provided the bounds are not in conflict (not both set with
min_value at least max_value), validate_int returns the integer parse and
validate_float the float parse; a parse below the minimum or above the
maximum raises ValueError. -/
theorem c1_numeric_parse_bounds (s : String) (imin imax : Option Int) (fmin fmax : Option Rat) :
    (∀ n : Int, pyInt s = some n → minMaxConflictInt imin imax = false →
      (((∀ m, imin = some m → m ≤ n) ∧ (∀ m, imax = some m → n ≤ m)) →
        validate_int (PyScalar.str s) imin imax none = .ok n)
      ∧ (((∃ m, imin = some m ∧ n < m) ∨ (∃ m, imax = some m ∧ m < n)) →
        ∃ msg, validate_int (PyScalar.str s) imin imax none = .error (.valueError msg)))
    ∧ (∀ q : Rat, pyFloat s = some q → minMaxConflictRat fmin fmax = false →
      (((∀ m, fmin = some m → m ≤ q) ∧ (∀ m, fmax = some m → q ≤ m)) →
        validate_float (PyScalar.str s) fmin fmax = .ok q)
      ∧ (((∃ m, fmin = some m ∧ q < m) ∨ (∃ m, fmax = some m ∧ m < q)) →
        ∃ msg, validate_float (PyScalar.str s) fmin fmax = .error (.valueError msg))) := by
  constructor
  · intro n hn hc
    constructor
    · rintro ⟨h1, h2⟩
      have hmin : checkMinInt n imin = none := by
        cases imin with
        | none => rfl
        | some m => simp [checkMinInt, not_lt.2 (h1 m rfl)]
      have hmax : checkMaxInt n imax = none := by
        cases imax with
        | none => rfl
        | some m => simp [checkMaxInt, not_lt.2 (h2 m rfl)]
      simp [validate_int, hc, pyIntCast, hn, hmin, hmax, checkChoicesInt]
    · rintro (⟨m, hm, hlt⟩ | ⟨m, hm, hlt⟩)
      · subst hm
        exact ⟨intStr n ++ (" is less than minimum value of ") ++ intStr m,
          by simp [validate_int, hc, pyIntCast, hn, checkMinInt, hlt]⟩
      · subst hm
        rcases imin with _ | m2
        · exact ⟨intStr n ++ (" is greater than maximum value of ") ++ intStr m,
            by simp [validate_int, hc, pyIntCast, hn, checkMinInt, checkMaxInt, hlt]⟩
        ·
          by_cases hlt2 : n < m2
          · exact ⟨intStr n ++ (" is less than minimum value of ") ++ intStr m2,
              by simp [validate_int, hc, pyIntCast, hn, checkMinInt, hlt2]⟩
          · exact ⟨intStr n ++ (" is greater than maximum value of ") ++ intStr m,
              by simp [validate_int, hc, pyIntCast, hn, checkMinInt, checkMaxInt, hlt, hlt2]⟩
  · intro q hq hc
    constructor
    · rintro ⟨h1, h2⟩
      have hmin : checkMinRat q fmin = none := by
        cases fmin with
        | none => rfl
        | some m => simp [checkMinRat, not_lt.2 (h1 m rfl)]
      have hmax : checkMaxRat q fmax = none := by
        cases fmax with
        | none => rfl
        | some m => simp [checkMaxRat, not_lt.2 (h2 m rfl)]
      simp [validate_float, hc, pyFloatCast, hq, hmin, hmax]
    · rintro (⟨m, hm, hlt⟩ | ⟨m, hm, hlt⟩)
      · subst hm
        exact ⟨ratStr q ++ (" is less than minimum value of ") ++ ratStr m,
          by simp [validate_float, hc, pyFloatCast, hq, checkMinRat, hlt]⟩
      · subst hm
        rcases fmin with _ | m2
        · exact ⟨ratStr q ++ (" is greater than maximum value of ") ++ ratStr m,
            by simp [validate_float, hc, pyFloatCast, hq, checkMinRat, checkMaxRat, hlt]⟩
        ·
          by_cases hlt2 : q < m2
          · exact ⟨ratStr q ++ (" is less than minimum value of ") ++ ratStr m2,
              by simp [validate_float, hc, pyFloatCast, hq, checkMinRat, hlt2]⟩
          · exact ⟨ratStr q ++ (" is greater than maximum value of ") ++ ratStr m,
              by simp [validate_float, hc, pyFloatCast, hq, checkMinRat, checkMaxRat, hlt, hlt2]⟩

/-- Witness for C1: the numeric string seven within bounds one and nine
validates to seven, and the float string for five halves within the same
bounds validates to five halves; an out-of-range parse raises ValueError. -/
theorem c1_witness :
    validate_int (PyScalar.str ("7")) (some 1) (some 9) none = .ok 7
    ∧ validate_float (PyScalar.str ("3")) (some 1) (some 9) = .ok (3 : Rat)
    ∧ (∃ msg, validate_int (PyScalar.str ("99")) (some 1) (some 9) none
        = .error (.valueError msg)) := by
  refine ⟨?_, ?_, ?_⟩
  · exact ((c1_numeric_parse_bounds ("7") (some 1) (some 9) (some 1) (some 9)).1 7 rfl rfl).1
      ⟨fun m hm => by cases hm; decide, fun m hm => by cases hm; decide⟩
  · exact ((c1_numeric_parse_bounds ("3") (some 1) (some 9) (some 1) (some 9)).2 (3 : Rat)
      (by decide) rfl).1 ⟨fun m hm => by cases hm; norm_num, fun m hm => by cases hm; norm_num⟩
  · exact ((c1_numeric_parse_bounds ("99") (some 1) (some 9) (some 1) (some 9)).1 99 rfl rfl).2
      (Or.inr ⟨9, rfl, by decide⟩)

/-! ## Claim C4 -/

theorem dictGet?_dictAssign (d : List (String × String)) (k' v k : String) :
    dictGet? (dictAssign d k' v) k = if k' = k then some v else dictGet? d k := by
  unfold dictAssign dictGet?
  by_cases hany : d.any (fun p => p.1 == k') = true
  · rw [if_pos hany]
    have hpred : ∀ p : String × String,
        (((if p.1 == k' then (k', v) else p).1 == k)) = (p.1 == k) := by
      intro p
      by_cases hp : p.1 == k'
      · rw [if_pos hp]
        have : p.1 = k' := beq_iff_eq.mp hp
        rw [this]
      · rw [if_neg hp]
    rw [List.find?_map]
    have hcomp : ((fun p : String × String => p.1 == k) ∘
        (fun p => if p.1 == k' then (k', v) else p)) = (fun p : String × String => p.1 == k) := by
      funext p
      exact hpred p
    rw [hcomp]
    by_cases hk : k' = k
    · subst hk
      obtain ⟨q, hq, hqp⟩ := List.any_eq_true.mp hany
      cases hfind : d.find? (fun p => p.1 == k') with
      | none =>
        rw [List.find?_eq_none] at hfind
        exact absurd hqp (hfind q hq)
      | some q0 =>
        have hq0 : (q0.1 == k') = true := by
          have := List.find?_some hfind
          simpa using this
        rw [if_pos rfl, Option.map_map]
        have hq0e : q0.1 = k' := beq_iff_eq.mp hq0
        simp [Function.comp, hq0e]
    · rw [if_neg hk]
      cases hfind : d.find? (fun p => p.1 == k) with
      | none => simp
      | some q0 =>
        have hq0 : (q0.1 == k) = true := by
          have := List.find?_some hfind
          simpa using this
        have hne : ¬ (q0.1 == k') = true := by
          intro hx
          exact hk ((beq_iff_eq.mp hx).symm.trans (beq_iff_eq.mp hq0))
        have hnee : q0.1 ≠ k' := fun hx => hne (beq_iff_eq.mpr hx)
        simp [Function.comp, hnee]
  · rw [if_neg hany]
    rw [List.find?_append]
    by_cases hk : k' = k
    · subst hk
      have hnone : d.find? (fun p => p.1 == k') = none := by
        rw [List.find?_eq_none]
        intro q hq
        rw [Bool.not_eq_true] at hany
        exact List.any_eq_false.mp hany q hq
      rw [hnone, if_pos rfl]
      simp [List.find?]
    · have hbe : (k' == k) = false := by
        simpa [beq_iff_eq] using hk
      have hone : List.find? (fun p => p.1 == k) [(k', v)] = none := by
        simp [List.find?, hbe]
      rw [hone, if_neg hk]
      simp

theorem foldl_dictAssign_get (options : List String) (d : List (String × String)) (k : String) :
    dictGet? (options.foldl (fun d o => dictAssign d (strLower o) o) d) k
      = (options.reverse.find? (fun o => strLower o == k)).or (dictGet? d k) := by
  induction options generalizing d with
  | nil => simp
  | cons o os ih =>
    rw [List.foldl_cons, ih, List.reverse_cons, List.find?_append, Option.or_assoc]
    congr 1
    rw [dictGet?_dictAssign]
    by_cases hk : strLower o = k
    · simp [List.find?, hk]
    · have : ¬ (strLower o == k) = true := fun hx => hk (beq_iff_eq.mp hx)
      simp only [List.find?, this, if_neg hk]
      simp [this]

/-- C4 counterexample: with the option set containing capital A and small
a, the input capital A matches the option capital A up to case, but
validate_str returns small a (the later option with the same lowercase),
not the quantified option. -/
theorem c4_counterexample :
    validate_str ("A") [("A"), ("a")] = .ok ("a") ∧ ("a" : String) ≠ ("A") := by
  exact ⟨rfl, by decide⟩

/-- C4 amended: for an input matching some option up to case, validate_str
returns the originally-cased option whose lowercase equals the lowercase
of the input, namely the last such option supplied; an input matching no
option up to case raises ValueError. -/
theorem c4_validate_str_spec (value : String) (options : List String) :
    (∀ o, options.reverse.find? (fun x => strLower x == strLower value) = some o →
      validate_str value options = .ok o ∧ o ∈ options ∧ strLower o = strLower value)
    ∧ ((∀ o ∈ options, strLower o ≠ strLower value) →
      validate_str value options
        = .error (.valueError (strOptionsMsg (strLower value) (caseInsensitiveOptions options)))) := by
  have hget : dictGet? (caseInsensitiveOptions options) (strLower value)
      = options.reverse.find? (fun o => strLower o == strLower value) := by
    rw [caseInsensitiveOptions, foldl_dictAssign_get]
    simp [dictGet?]
  constructor
  · intro o ho
    refine ⟨?_, ?_, ?_⟩
    · simp only [validate_str]
      rw [hget, ho]
    · exact List.mem_reverse.mp (List.mem_of_find?_eq_some ho)
    · have h3 := List.find?_some ho
      exact beq_iff_eq.mp (by simpa using h3)
  · intro hall
    have hnone : options.reverse.find? (fun o => strLower o == strLower value) = none := by
      rw [List.find?_eq_none]
      intro o ho
      intro hx
      exact hall o (List.mem_reverse.mp ho) (beq_iff_eq.mp hx)
    simp only [validate_str]
    rw [hget, hnone]

/-- Witness for C4: the input Red returns the canonical option RED, and an
input matching no option raises ValueError. -/
theorem c4_witness :
    validate_str ("Red") [("RED"), ("Blue")] = .ok ("RED")
    ∧ ("RED") ∈ [("RED"), ("Blue")]
    ∧ validate_str ("zzz") [("RED"), ("Blue")]
      = .error (.valueError (strOptionsMsg (strLower ("zzz"))
          (caseInsensitiveOptions [("RED"), ("Blue")]))) := by
  obtain ⟨h1, h2, _⟩ := (c4_validate_str_spec ("Red") [("RED"), ("Blue")]).1 ("RED") (by decide)
  exact ⟨h1, h2, (c4_validate_str_spec ("zzz") [("RED"), ("Blue")]).2 (by decide)⟩

/-! ## Claim C8 -/

theorem tfsCreateFile_removable (fs : TempFS) (name : String) :
    (tfsCreateFile fs name).removable.contains name = true := by
  unfold tfsCreateFile
  by_cases h : fs.removable.contains name = true
  · rw [if_pos h]
    exact h
  · rw [if_neg h]
    simp

theorem tfsRemove_not_exists (fs : TempFS) (name : String) :
    tfsExists (tfsRemove fs name) name = false := by
  unfold tfsExists tfsRemove
  rw [List.any_eq_false]
  intro q hq
  rw [List.mem_filter] at hq
  simpa using hq.2

theorem tfsExists_false_of_kinds (fs : TempFS) (name : String)
    (hf : tfsIsfile fs name = false) (hd : tfsIsdir fs name = false) :
    tfsExists fs name = false := by
  unfold tfsExists
  unfold tfsIsfile at hf
  unfold tfsIsdir at hd
  rw [List.any_eq_false] at hf hd ⊢
  intro q hq heq
  cases hkind : q.2 with
  | file => exact hf q hq (by simp [heq, hkind])
  | dir => exact hd q hq (by simp [heq, hkind])

/-- C8 counterexample: a block that creates a regular file at the provided
path whose removal is not permitted exits normally, no error is
propagated, and after the scoped exit the path still exists on disk (the
PermissionError in the cleanup is only logged). -/
theorem c8_counterexample :
    (temporary_filename ("/tmp/t")
        (fun n _ => (⟨[(n, EntryKind.file)], []⟩, none)) ⟨[], []⟩).2 = none
    ∧ tfsExists (temporary_filename ("/tmp/t")
        (fun n _ => (⟨[(n, EntryKind.file)], []⟩, none)) ⟨[], []⟩).1 ("/tmp/t") = true := by
  exact ⟨rfl, rfl⟩

/-- C8 amended: the helper re-raises exactly the block's own exception
(a PermissionError in the cleanup is never propagated), and when the path
is removable and not a directory after the block, the path no longer
exists after the scoped exit, whether the block exited normally or via an
exception. -/
theorem c8_temporary_filename_cleanup (name : String)
    (block : String → TempFS → TempFS × Option String) (fs : TempFS) :
    (temporary_filename name block fs).2
      = (block name (tfsRemove (tfsCreateFile fs name) name)).2
    ∧ ((block name (tfsRemove (tfsCreateFile fs name) name)).1.removable.contains name = true →
       tfsIsdir (block name (tfsRemove (tfsCreateFile fs name) name)).1 name = false →
       tfsExists (temporary_filename name block fs).1 name = false) := by
  have hrem := tfsCreateFile_removable fs name
  constructor
  · simp only [temporary_filename, hrem, if_true]
    split
    · split
      · rfl
      · rfl
    · rfl
  · intro h1 h2
    simp only [temporary_filename, hrem, if_true]
    by_cases hf : tfsIsfile (block name (tfsRemove (tfsCreateFile fs name) name)).1 name = true
    · simp only [hf, if_true, h1]
      exact tfsRemove_not_exists _ name
    · rw [Bool.not_eq_true] at hf
      simp only [hf, Bool.false_eq_true, if_false]
      exact tfsExists_false_of_kinds _ _ hf h2

/-- Witness for C8: a block that raises has its exception re-raised and
the fresh path, never recreated, does not exist after the scoped exit. -/
theorem c8_witness :
    (temporary_filename ("/tmp/t") (fun _ f => (f, some ("boom"))) ⟨[], []⟩).2 = some ("boom")
    ∧ tfsExists (temporary_filename ("/tmp/t")
        (fun _ f => (f, some ("boom"))) ⟨[], []⟩).1 ("/tmp/t") = false := by
  refine ⟨(c8_temporary_filename_cleanup ("/tmp/t") (fun _ f => (f, some ("boom"))) ⟨[], []⟩).1, ?_⟩
  exact (c8_temporary_filename_cleanup ("/tmp/t") (fun _ f => (f, some ("boom"))) ⟨[], []⟩).2
    (by decide) (by decide)

/-! ## Claim C9 -/

theorem isabs_of_head (s : String) (t : List Char) (h : s.data = '/' :: t) :
    isabs s = true := by
  unfold isabs
  rw [h]
  rfl

theorem isabs_shape (s : String) (h : isabs s = true) : ∃ t, s.data = '/' :: t := by
  unfold isabs at h
  cases hd : s.data with
  | nil => rw [hd] at h; simp at h
  | cons c t =>
    rw [hd] at h
    simp at h
    subst h
    exact ⟨t, rfl⟩

theorem isabs_append_left (a x : String) (h : isabs a = true) : isabs (a ++ x) = true := by
  obtain ⟨t, ht⟩ := isabs_shape a h
  apply isabs_of_head _ (t ++ x.data)
  rw [String.data_append, ht]
  rfl

theorem isabs_pathJoin (a b : String) (h : isabs a = true ∨ isabs b = true) :
    isabs (pathJoin a b) = true := by
  unfold pathJoin
  by_cases hb : isabs b = true
  · rw [if_pos hb]
    exact hb
  · rw [if_neg hb]
    have ha : isabs a = true := h.resolve_right hb
    split
    · exact isabs_append_left a b ha
    · exact isabs_append_left _ b (isabs_append_left a _ ha)

theorem leadingSlashes_pos (cs : List Char) (t : List Char) (h : cs = '/' :: t) :
    1 ≤ leadingSlashes cs := by
  unfold leadingSlashes
  have hlen : 1 ≤ (cs.takeWhile (fun c => c == '/')).length := by
    rw [h]
    simp [List.takeWhile_cons]
  split
  · omega
  · split
    · omega
    · omega

theorem isabs_normpath (p : String) (h : isabs p = true) : isabs (normpath p) = true := by
  obtain ⟨t, ht⟩ := isabs_shape p h
  have hemp : ("" : String).data = [] := rfl
  have hne : p ≠ ("") := by
    intro he
    rw [he, hemp] at ht
    exact List.noConfusion ht
  simp only [normpath]
  rw [if_neg hne]
  obtain ⟨m, hm⟩ : ∃ m, leadingSlashes p.data = m + 1 :=
    ⟨leadingSlashes p.data - 1, by have := leadingSlashes_pos p.data t ht; omega⟩
  rw [hm]
  set j := joinWithSlash (List.foldl (normpathStep (m + 1)) [] ((splitOnSlash p.data).map String.mk)) with hj
  have hres : (String.mk (List.replicate (m + 1) '/') ++ j).data
      = '/' :: (List.replicate m '/' ++ j.data) := by
    rw [String.data_append]
    simp [List.replicate_succ]
  have hne2 : String.mk (List.replicate (m + 1) '/') ++ j ≠ ("") := by
    intro he
    have hd := congrArg String.data he
    rw [hres, hemp] at hd
    exact List.noConfusion hd
  rw [if_neg hne2]
  exact isabs_of_head _ _ hres

theorem isabs_resolvedPath (fs : FileSystem) (dd : Option String) (value : String)
    (h : isabs (defaultDir fs dd) = true ∨ isabs (expandvars fs.env value) = true) :
    isabs (resolvedPath fs dd value) = true := by
  unfold resolvedPath
  by_cases he : isabs (expandvars fs.env value) = true
  · rw [if_pos he]
    exact isabs_normpath _ he
  · rw [if_neg he]
    exact isabs_normpath _ (isabs_pathJoin _ _ (Or.inl (h.resolve_right he)))

theorem inputChecks_ok (v : String) (fo dok cd : Bool) (fs : FileSystem)
    (p : String) (fs1 : FileSystem) (h : inputChecks v fo dok cd fs = .ok (p, fs1)) :
    p = v := by
  unfold inputChecks at h
  split at h
  · exact absurd h (by simp)
  · split at h
    · exact absurd h (by simp)
    · split at h
      · exact absurd h (by simp)
      · split at h
        · exact absurd h (by simp)
        · split at h
          · exact absurd h (by simp)
          · exact (congrArg Prod.fst (Except.ok.inj h)).symm

theorem outputChecks_ok (v : String) (fo dok cd : Bool) (fs : FileSystem)
    (p : String) (fs1 : FileSystem) (h : outputChecks v fo dok cd fs = .ok (p, fs1)) :
    p = v := by
  unfold outputChecks at h
  split at h
  · split at h
    · exact absurd h (by simp)
    · split at h
      · exact absurd h (by simp)
      · split at h
        · exact absurd h (by simp)
        · split at h
          · exact absurd h (by simp)
          · exact (congrArg Prod.fst (Except.ok.inj h)).symm
  · split at h
    · exact (congrArg Prod.fst (Except.ok.inj h)).symm
    · split at h
      · exact absurd h (by simp)
      · split at h
        · exact absurd h (by simp)
        · split at h
          · exact absurd h (by simp)
          · exact (congrArg Prod.fst (Except.ok.inj h)).symm

/-- C9 counterexample: with the HOME environment variable set, an input
with a leading tilde is not home-expanded by validate_input_path; the
tilde survives as a literal path component under the working directory. -/
theorem c9_counterexample :
    validate_input_path ("~/x") true false none false
        ⟨("/cwd"), [(("HOME"), ("/home/user"))], [("/cwd/~/x")], [("/cwd")], [("/cwd/~/x")], []⟩
      = .ok (("/cwd/~/x"),
        ⟨("/cwd"), [(("HOME"), ("/home/user"))], [("/cwd/~/x")], [("/cwd")], [("/cwd/~/x")], []⟩)
    ∧ strContainsB ("/cwd/~/x") ("~") = true
    ∧ ("/cwd/~/x") ≠ ("/home/user/x") := by
  exact ⟨rfl, rfl, by decide⟩

/-- C9 amended: a path returned by validate_input_path or
validate_output_path is the environment-variable expansion of the input
(user-home references are not expanded), prepended with the default
directory (the working directory when unspecified) when relative, and
normalized; it is absolute whenever the default directory or the expanded
input is. -/
theorem c9_validated_path_shape (value : String) (fo dok : Bool) (dd : Option String)
    (cd : Bool) (fs : FileSystem) (p : String) (fs1 : FileSystem)
    (h : validate_input_path value fo dok dd cd fs = .ok (p, fs1) ∨
         validate_output_path value fo dok dd cd fs = .ok (p, fs1)) :
    p = resolvedPath fs dd value
    ∧ ((isabs (defaultDir fs dd) = true ∨ isabs (expandvars fs.env value) = true) →
        isabs p = true) := by
  have hp : p = resolvedPath fs dd value := by
    rcases h with h | h
    · unfold validate_input_path at h
      split at h
      · exact absurd h (by simp)
      · exact inputChecks_ok _ _ _ _ _ _ _ h
    · unfold validate_output_path at h
      split at h
      · exact absurd h (by simp)
      · split at h
        · exact absurd h (by simp)
        · exact outputChecks_ok _ _ _ _ _ _ _ h
  refine ⟨hp, fun habs => ?_⟩
  rw [hp]
  exact isabs_resolvedPath fs dd value habs

/-- Witness for C9: a relative output path under an absolute working
directory validates to the absolute normalized path under that directory. -/
theorem c9_witness :
    validate_output_path ("out.txt") true false none false
        ⟨("/cwd"), [], [], [("/cwd")], [], [("/cwd")]⟩
      = .ok (("/cwd/out.txt"), ⟨("/cwd"), [], [], [("/cwd")], [], [("/cwd")]⟩)
    ∧ ("/cwd/out.txt")
        = resolvedPath ⟨("/cwd"), [], [], [("/cwd")], [], [("/cwd")]⟩ none ("out.txt")
    ∧ isabs ("/cwd/out.txt") = true := by
  refine ⟨rfl, ?_, ?_⟩
  · exact (c9_validated_path_shape ("out.txt") true false none false
      ⟨("/cwd"), [], [], [("/cwd")], [], [("/cwd")]⟩ ("/cwd/out.txt")
      ⟨("/cwd"), [], [], [("/cwd")], [], [("/cwd")]⟩ (Or.inr rfl)).1
  · exact (c9_validated_path_shape ("out.txt") true false none false
      ⟨("/cwd"), [], [], [("/cwd")], [], [("/cwd")]⟩ ("/cwd/out.txt")
      ⟨("/cwd"), [], [], [("/cwd")], [], [("/cwd")]⟩ (Or.inr rfl)).2 (Or.inl rfl)

/-! ## Claim C3 -/

theorem basename_no_slash (o : String) : ∀ c ∈ (basename o).data, c ≠ '/' := by
  intro c hc
  unfold basename at hc
  have hc2 : c ∈ o.data.reverse.takeWhile (fun c => c != '/') := List.mem_reverse.mp hc
  have := List.mem_takeWhile_imp hc2
  simpa using this

theorem splitext_fst_subset (b : String) : ∀ c ∈ ((splitext b).1).data, c ∈ b.data := by
  intro c hc
  unfold splitext at hc
  split at hc
  · exact hc
  · split at hc
    · exact hc
    · have hc2 : c ∈ b.data.reverse.drop
          ((b.data.reverse.takeWhile (fun c => c != '.')).length + 1) :=
        List.mem_reverse.mp hc
      have := List.drop_subset _ _ hc2
      exact List.mem_reverse.mp this

theorem backupStem_no_slash (o : String) : ∀ c ∈ (backupStem o).data, c ≠ '/' := by
  intro c hc
  exact basename_no_slash o c (splitext_fst_subset (basename o) c hc)

theorem isabs_backupPart (f p e : String) (hf : ∀ c ∈ f.data, c ≠ '/') :
    isabs (f ++ ("_") ++ p ++ (".") ++ e) = false := by
  unfold isabs
  have hdata : (f ++ ("_") ++ p ++ (".") ++ e).data
      = f.data ++ ('_' :: (p.data ++ ('.' :: e.data))) := by
    simp only [String.data_append, List.append_assoc]
    rfl
  rw [hdata]
  cases hfd : f.data with
  | nil => rfl
  | cons c t =>
    have hcne : c ≠ '/' := hf c (by rw [hfd]; exact List.mem_cons_self c t)
    simp only [List.cons_append, List.head?_cons]
    exact beq_eq_false_iff_ne.mpr (fun hx => hcne (Option.some.inj hx))

theorem backupCandidate_inj (directory filename extension : String)
    (hf : ∀ c ∈ filename.data, c ≠ '/') (i j : Nat)
    (h : backupCandidate directory filename extension i
       = backupCandidate directory filename extension j) : i = j := by
  unfold backupCandidate pathJoin at h
  rw [isabs_backupPart filename (pad3 i) extension hf,
      isabs_backupPart filename (pad3 j) extension hf] at h
  simp only [Bool.false_eq_true, if_false] at h
  have hx : filename ++ ("_") ++ pad3 i ++ (".") ++ extension
      = filename ++ ("_") ++ pad3 j ++ (".") ++ extension := by
    by_cases hC : directory = ("") ∨ endsWithSlash directory = true
    · rw [if_pos hC, if_pos hC] at h
      exact strAppend_left_cancel h
    · rw [if_neg hC, if_neg hC] at h
      exact strAppend_left_cancel h
  have h2 := strAppend_right_cancel hx
  have h3 := strAppend_right_cancel h2
  have h4 := strAppend_left_cancel h3
  exact pad3_injective h4

theorem firstFreeIdx_spec (fs : FileSystem) (mk : Nat → String) :
    ∀ (fuel i0 : Nat), (∃ j, i0 ≤ j ∧ j < i0 + fuel ∧ ¬ fsExists fs (mk j)) →
    ∃ i, firstFreeIdx fs mk fuel i0 = some i
      ∧ ¬ fsExists fs (mk i) ∧ (∀ j, i0 ≤ j → j < i → fsExists fs (mk j)) := by
  intro fuel
  induction fuel with
  | zero =>
    rintro i0 ⟨j, hj1, hj2, _⟩
    omega
  | succ fuel ih =>
    rintro i0 ⟨j, hj1, hj2, hjfree⟩
    unfold firstFreeIdx
    by_cases h0 : fsExists fs (mk i0)
    · rw [if_pos h0]
      have hne : j ≠ i0 := fun he => hjfree (he ▸ h0)
      obtain ⟨i, hi1, hi2, hi3⟩ := ih (i0 + 1) ⟨j, by omega, by omega, hjfree⟩
      refine ⟨i, hi1, hi2, fun j2 hj2a hj2b => ?_⟩
      by_cases hj2c : j2 = i0
      · exact hj2c ▸ h0
      · exact hi3 j2 (by omega) hj2b
    · rw [if_neg h0]
      exact ⟨i0, rfl, h0, fun j2 ha hb => absurd ha (by omega)⟩

theorem exists_free_idx (fs : FileSystem) (mk : Nat → String)
    (hinj : Function.Injective mk) :
    ∃ j, j < fs.files.length + fs.dirs.length + 1 ∧ ¬ fsExists fs (mk j) := by
  by_contra hc
  push_neg at hc
  have hsub : (List.range (fs.files.length + fs.dirs.length + 1)).map mk
      ⊆ fs.files ++ fs.dirs := by
    intro x hx
    rw [List.mem_map] at hx
    obtain ⟨j, hj, rfl⟩ := hx
    rw [List.mem_range] at hj
    rcases hc j hj with hfm | hdm
    · exact List.mem_append_left _ hfm
    · exact List.mem_append_right _ hdm
  have hnodup : ((List.range (fs.files.length + fs.dirs.length + 1)).map mk).Nodup :=
    (List.nodup_range _).map hinj
  have hlen := (List.subperm_of_subset hnodup hsub).length_le
  simp only [List.length_map, List.length_range, List.length_append] at hlen
  omega

theorem fsExists_rename_tgt (fs : FileSystem) (old tgt : String) (h : fsExists fs old) :
    fsExists (fsRename fs old tgt) tgt := by
  rcases h with hf | hd
  · exact Or.inl (List.mem_map.mpr ⟨old, hf, by simp⟩)
  · exact Or.inr (List.mem_map.mpr ⟨old, hd, by simp⟩)

theorem fsExists_rename_keep (fs : FileSystem) (old tgt p : String) (hne : p ≠ old)
    (h : fsExists fs p) : fsExists (fsRename fs old tgt) p := by
  rcases h with hf | hd
  · exact Or.inl (List.mem_map.mpr ⟨p, hf, by simp [hne]⟩)
  · exact Or.inr (List.mem_map.mpr ⟨p, hd, by simp [hne]⟩)

/-- C3: when the resolved outfile exists, rename_preexisting_outfile
renames it to the backup sibling with the smallest zero-padded numeric
suffix whose path does not yet exist (every smaller suffix is taken), the
backup exists afterwards, and every other existing path is preserved, so
no existing file is overwritten. -/
theorem c3_rename_spec (fs : FileSystem) (outfile : String)
    (h : fsExists fs (resolveAgainstCwd fs outfile)) :
    ∃ i, rename_preexisting_outfile outfile fs
        = fsRename fs (resolveAgainstCwd fs outfile) (backupFor fs outfile i)
      ∧ ¬ fsExists fs (backupFor fs outfile i)
      ∧ (∀ j, j < i → fsExists fs (backupFor fs outfile j))
      ∧ fsExists (rename_preexisting_outfile outfile fs) (backupFor fs outfile i)
      ∧ (∀ p, fsExists fs p → p ≠ resolveAgainstCwd fs outfile →
          fsExists (rename_preexisting_outfile outfile fs) p) := by
  have hinj : Function.Injective (backupFor fs outfile) := by
    intro i j hij
    unfold backupFor at hij
    exact backupCandidate_inj _ _ _ (backupStem_no_slash _) i j hij
  obtain ⟨j0, hj0a, hj0b⟩ := exists_free_idx fs (backupFor fs outfile) hinj
  obtain ⟨i, hi1, hi2, hi3⟩ := firstFreeIdx_spec fs (backupFor fs outfile)
    (fs.files.length + fs.dirs.length + 1) 0 ⟨j0, by omega, by omega, hj0b⟩
  have hre : rename_preexisting_outfile outfile fs
      = fsRename fs (resolveAgainstCwd fs outfile) (backupFor fs outfile i) := by
    unfold rename_preexisting_outfile
    rw [if_pos h, hi1]
  refine ⟨i, hre, hi2, fun j hj => hi3 j (by omega) hj, ?_, ?_⟩
  · rw [hre]
    exact fsExists_rename_tgt fs _ _ h
  · intro p hp hpne
    rw [hre]
    exact fsExists_rename_keep fs _ _ p hpne hp

/-- Witness for C3: in a directory holding the outfile and an existing
first backup, the resolved outfile exists and the rename specification
applies. -/
theorem c3_witness :
    fsExists ⟨("/d"), [], [("/d/out.txt"), ("/d/out_000.txt")], [("/d")], [], []⟩
      (resolveAgainstCwd ⟨("/d"), [], [("/d/out.txt"), ("/d/out_000.txt")], [("/d")], [], []⟩ ("out.txt"))
    ∧ ∃ i, rename_preexisting_outfile ("out.txt")
          ⟨("/d"), [], [("/d/out.txt"), ("/d/out_000.txt")], [("/d")], [], []⟩
        = fsRename ⟨("/d"), [], [("/d/out.txt"), ("/d/out_000.txt")], [("/d")], [], []⟩
          (resolveAgainstCwd ⟨("/d"), [], [("/d/out.txt"), ("/d/out_000.txt")], [("/d")], [], []⟩ ("out.txt"))
          (backupFor ⟨("/d"), [], [("/d/out.txt"), ("/d/out_000.txt")], [("/d")], [], []⟩ ("out.txt") i)
      ∧ ¬ fsExists ⟨("/d"), [], [("/d/out.txt"), ("/d/out_000.txt")], [("/d")], [], []⟩
          (backupFor ⟨("/d"), [], [("/d/out.txt"), ("/d/out_000.txt")], [("/d")], [], []⟩ ("out.txt") i)
      ∧ (∀ j, j < i → fsExists ⟨("/d"), [], [("/d/out.txt"), ("/d/out_000.txt")], [("/d")], [], []⟩
          (backupFor ⟨("/d"), [], [("/d/out.txt"), ("/d/out_000.txt")], [("/d")], [], []⟩ ("out.txt") j))
      ∧ fsExists (rename_preexisting_outfile ("out.txt")
          ⟨("/d"), [], [("/d/out.txt"), ("/d/out_000.txt")], [("/d")], [], []⟩)
          (backupFor ⟨("/d"), [], [("/d/out.txt"), ("/d/out_000.txt")], [("/d")], [], []⟩ ("out.txt") i)
      ∧ (∀ p, fsExists ⟨("/d"), [], [("/d/out.txt"), ("/d/out_000.txt")], [("/d")], [], []⟩ p →
          p ≠ resolveAgainstCwd ⟨("/d"), [], [("/d/out.txt"), ("/d/out_000.txt")], [("/d")], [], []⟩ ("out.txt") →
          fsExists (rename_preexisting_outfile ("out.txt")
            ⟨("/d"), [], [("/d/out.txt"), ("/d/out_000.txt")], [("/d")], [], []⟩) p) := by
  exact ⟨by decide,
    c3_rename_spec ⟨("/d"), [], [("/d/out.txt"), ("/d/out_000.txt")], [("/d")], [], []⟩
      ("out.txt") (by decide)⟩

/-- Witness for C5: bounds five and two conflict and raise for an int
input value, and equal bounds two and two also satisfy the amended
condition. -/
theorem c5_witness :
    (∃ m, validate_int (PyScalar.int 3) (some 5) (some 2) none
      = .error (.argumentConflictError m))
    ∧ minMaxConflictInt (some 2) (some 2) = true := by
  exact ⟨(c5_conflict_exactly_ge (PyScalar.int 3) (some 5) (some 2) none none none).1.mpr
    (by decide), by decide⟩

/-- Witness for C10: the bare int four validates against expected length
one exactly as the singleton of its scalar validation. -/
theorem c10_witness :
    validate_ints (PyObj.scalar (PyScalar.int 4)) (some 1) none none none
      = (validate_int (PyScalar.int 4) none none none).map (fun v => [v]) := by
  exact (c10_scalar_singleton 4 none none none).2
